import Mathlib

/-!
# JniPlatform bridge (libadblockplus-android, jni/JniPlatform.cpp)

A shallow embedding of the six JNI entry points of `JniPlatform.cpp` and of the
permission-callback lambda that `JniSetUpFilterEngine` installs.

Modelling conventions
* A nullable `jobject` / `jstring` argument is an `Option JObject`; `none` is `NULL`.
* A `jlong` handle and a native address are natural numbers; `0` is the null pointer.
* Native objects owned by the bridge live in `World.heap`, keyed by address; the
  isolates owned by the caller are the addresses in `World.isolates`.
* The scheduler is a queue of pending units of work (`World.pending`); every
  submission records the scheduler it was made on.
* Calls into the AdblockPlus library have an outcome supplied by `Env`: they return,
  or they throw a native exception. Allocations, the constructors of the bridge's
  wrapper classes and the conversion helpers of `Utils.h` are total.
* Dereferencing a handle that is not live is undefined behaviour (`Res.undefined`).
* Observable calls are appended to `World.trace`: calls on a platform (the event
  records the platform object that receives the call), invocations of the managed
  permission predicate, and calls of native completion continuations.
* A `delete` runs destructors, which are `noexcept`: it has no failing outcome.
-/

namespace JniPlatformBridge

/-- A non-null reference to a managed object. -/
abbrev JObject := Nat

/-- Identity of an `AdblockPlus::Scheduler` callable. -/
abbrev Scheduler := Nat

/-- Identity of a native completion continuation `std::function<void(bool)>`. -/
abbrev DoneCallback := Nat

/-- A native exception (`std::exception`) with its message. -/
structure NativeException where
  what : String
deriving DecidableEq, Repr

/-- Outcome of one invocation of the managed permission predicate. -/
inductive ManagedResult where
  | returned (allowed : Bool)
  | raised (message : String)
deriving DecidableEq, Repr

/-- The class `V8IsolateHolder` (lines 27-44): one private field, the isolate pointer. -/
structure V8IsolateHolder where
  isolate : Nat
deriving DecidableEq, Repr

/-- A data member of a class, as far as destruction is concerned: a raw pointer `T*`,
whose destruction leaves the pointee alone, or an owning pointer `std::unique_ptr<T>`,
whose destruction deletes the pointee. -/
inductive Member where
  | rawPointer (pointee : Nat)
  | owningPointer (pointee : Nat)
deriving DecidableEq, Repr

/-- The effect of an implicit destructor on a set of live objects: the members are
destroyed one by one, and only owning pointers release what they point to. -/
def releaseMembers : List Member → List Nat → List Nat
  | [], live => live
  | Member.rawPointer _ :: rest, live => releaseMembers rest live
  | Member.owningPointer pointee :: rest, live =>
    releaseMembers rest (live.filter (fun address => address ≠ pointee))

/-- The data members of `V8IsolateHolder` (line 43): `v8::Isolate* isolate`. -/
def V8IsolateHolder.members (self : V8IsolateHolder) : List Member :=
  [Member.rawPointer self.isolate]

/-- The method `V8IsolateHolder::Get` (lines 34-37). -/
def V8IsolateHolder.Get (self : V8IsolateHolder) : Nat :=
  self.isolate

/-- The value bundle `AdblockPlus::AppInfo`, with the six fields the source assigns. -/
structure AppInfo where
  application : String := ""
  applicationVersion : String := ""
  locale : String := ""
  name : String := ""
  version : String := ""
  developmentBuild : Bool := false
deriving DecidableEq, Repr

/-- Native wrapper of a managed log sink (constructed at line 74). -/
structure JniLogSystemCallback where
  callbackObject : JObject
deriving DecidableEq, Repr

/-- Native wrapper of a managed network sink (constructed at line 78). -/
structure JniWebRequest where
  callbackObject : JObject
deriving DecidableEq, Repr

/-- Native wrapper of a managed permission callback (constructed at line 128). -/
structure JniIsAllowedConnectionTypeCallback where
  callbackObject : JObject
deriving DecidableEq, Repr

/-- The three components of `AdblockPlus::DefaultPlatformBuilder` that `JniCtor`
touches. `none` means the component was not overridden. -/
structure DefaultPlatformBuilder where
  logSystem : Option JniLogSystemCallback := none
  webRequest : Option JniWebRequest := none
  fileSystem : Option String := none
deriving DecidableEq, Repr

/-- An `AdblockPlus::Platform` as produced by `CreatePlatform`: it takes over the
components of the builder. -/
structure Platform where
  logSystem : Option JniLogSystemCallback
  webRequest : Option JniWebRequest
  fileSystem : Option String
deriving DecidableEq, Repr

/-- Modelled from the spec: the struct `JniPlatform` of `JniPlatform.h`, a handle
"owning exactly one native Platform instance and one Scheduler reference". A
default-constructed object has neither set. -/
structure JniPlatform where
  scheduler : Option Scheduler := none
  platform : Option Platform := none
deriving DecidableEq, Repr

/-- The closure submitted to the scheduler at lines 138-141, with its capture list
`[callback, allowedConnectionType, doneCallback]`. -/
structure SchedulerTask where
  callback : JniIsAllowedConnectionTypeCallback
  allowedConnectionType : Option String
  doneCallback : DoneCallback
deriving DecidableEq, Repr

/-- The closure assigned to `isSubscriptionDownloadAllowedCallback` at lines 130-142,
with its capture list `[scheduler, callback]`. The captured scheduler is a copy of
the handle's `std::function`, which may be empty. -/
structure PermissionHook where
  scheduler : Option Scheduler
  callback : JniIsAllowedConnectionTypeCallback
deriving DecidableEq, Repr

/-- The part of `FilterEngine::CreationParameters` the bridge writes: the permission
hook, `none` when the `std::function` is empty. -/
structure CreationParameters where
  isSubscriptionDownloadAllowedCallback : Option PermissionHook := none
deriving DecidableEq, Repr

/-- Observable calls, in the order they happen. `receiver` is the platform object on
which the method is called. -/
inductive Event where
  | managedCall (callbackObject : JObject) (arg : Option String) (result : ManagedResult)
  | done (doneCallback : DoneCallback) (allowed : Bool)
  | SetUpJsEngine (receiver : Platform) (appInfo : AppInfo)
      (isolateProvider : Option V8IsolateHolder)
  | GetJsEngine (receiver : Platform)
  | CreateFilterEngineAsync (receiver : Platform) (parameters : CreationParameters)
  | GetFilterEngine (receiver : Platform)
deriving DecidableEq, Repr

/-- State of the native side and of the managed exception slot. -/
structure World where
  heap : List (Nat × JniPlatform) := []
  isolates : List Nat := []
  pending : List (Scheduler × SchedulerTask) := []
  trace : List Event := []
  javaException : Option String := none
deriving DecidableEq, Repr

/-- Everything outside `JniPlatform.cpp` that the entry points call: the outcome of
each AdblockPlus library call, the conversion helpers of `Utils.h`, and the managed
permission predicate (which may depend on the calls made so far). -/
structure Env where
  GetDefaultAsyncExecutor : Except NativeException Scheduler
  CreateDefaultWebRequest : JniWebRequest → Except NativeException Unit
  CreateDefaultFileSystem : String → Except NativeException Unit
  CreatePlatform : DefaultPlatformBuilder → Except NativeException Unit
  SetUpJsEngine : Platform → AppInfo → Option V8IsolateHolder → Except NativeException Unit
  GetJsEngine : Platform → Except NativeException Nat
  CreateFilterEngineAsync : Platform → CreationParameters → Except NativeException Unit
  GetFilterEngine : Platform → Except NativeException Unit
  JniGetStringField : JObject → String → String
  JniGetBooleanField : JObject → String → Bool
  JniJavaToStdString : JObject → String
  isConnectionAllowed : JObject → Option String → List Event → ManagedResult

/-- Result of running native code: normal return, a native exception in flight, or
undefined behaviour. -/
inductive Res (α : Type) where
  | ok (value : α) (w : World)
  | throw (e : NativeException) (w : World)
  | undefined

/-- Native computations over the world. -/
def M (α : Type) : Type := World → Res α

/-- Sequencing: an exception or undefined behaviour skips the rest. -/
def M.bind {α β : Type} (x : M α) (f : α → M β) : M β := fun w =>
  match x w with
  | Res.ok a w1 => f a w1
  | Res.throw e w1 => Res.throw e w1
  | Res.undefined => Res.undefined

/-- Normal return. -/
def M.pure {α : Type} (a : α) : M α := fun w => Res.ok a w

instance : Monad M where
  pure := M.pure
  bind := M.bind

/-- A `throw` statement. -/
def throwNative {α : Type} (e : NativeException) : M α := fun w => Res.throw e w

/-- Undefined behaviour. -/
def undefinedBehaviour {α : Type} : M α := fun _ => Res.undefined

/-- A library call whose outcome is given. -/
def call {α : Type} (outcome : Except NativeException α) : M α :=
  match outcome with
  | Except.ok a => M.pure a
  | Except.error e => throwNative e

/-- Append one observable call to the trace. -/
def emit (ev : Event) : M Unit := fun w =>
  Res.ok () { w with trace := w.trace ++ [ev] }

/-- A `try` block with a handler for every native exception. -/
def tryCatchAll {α : Type} (body : M α) (handler : NativeException → M α) : M α := fun w =>
  match body w with
  | Res.ok a w1 => Res.ok a w1
  | Res.throw e w1 => handler e w1
  | Res.undefined => Res.undefined

/-- Modelled from the spec: `JniThrowException` of `Utils.h`, which re-signals a native
failure "to the caller as a managed-runtime exception". It leaves the message of the
native exception pending in the managed runtime. -/
def JniThrowException (e : NativeException) : M Unit := fun w =>
  Res.ok () { w with javaException := some e.what }

/-- Modelled from the spec: the macro `CATCH_THROW_AND_RETURN(env, retVal)` of
`Utils.h`: "any native construction exception is caught at the boundary and
re-signaled to the caller as a managed-runtime exception"; the entry point then
returns `retVal`. -/
def CATCH_THROW_AND_RETURN {α : Type} (body : M α) (retVal : α) : M α :=
  tryCatchAll body (fun e => do JniThrowException e; pure retVal)

/-- Modelled from the spec: the macro `CATCH_AND_THROW(env)` of `Utils.h`, the same
conversion for entry points that return nothing. -/
def CATCH_AND_THROW (body : M Unit) : M Unit :=
  tryCatchAll body (fun e => JniThrowException e)

/-- Modelled from the spec: `JniPtrToLong` of `Utils.h`, one direction of the "narrow,
total, two-way mapping between a native address and an integral value". -/
def JniPtrToLong (address : Nat) : Nat := address

/-- First object stored at an address. -/
def findObject (address : Nat) : List (Nat × JniPlatform) → Option JniPlatform
  | [] => none
  | (k, v) :: rest => if k = address then some v else findObject address rest

/-- Update the first object stored at an address. -/
def updateObject (address : Nat) (f : JniPlatform → JniPlatform) :
    List (Nat × JniPlatform) → List (Nat × JniPlatform)
  | [] => []
  | (k, v) :: rest =>
    if k = address then (k, f v) :: rest else (k, v) :: updateObject address f rest

/-- Remove the first object stored at an address. -/
def removeObject (address : Nat) : List (Nat × JniPlatform) → List (Nat × JniPlatform)
  | [] => []
  | (k, v) :: rest => if k = address then rest else (k, v) :: removeObject address rest

/-- An address above every live one; never null. -/
def freshAddress (heap : List (Nat × JniPlatform)) : Nat :=
  (heap.map Prod.fst).foldr max 0 + 1

/-- The expression `new JniPlatform()` (line 69): a default-constructed object at a
fresh non-null address. -/
def newJniPlatform : M Nat := fun w =>
  Res.ok (freshAddress w.heap) { w with heap := (freshAddress w.heap, {}) :: w.heap }

/-- Modelled from the spec: `JniLongToTypePtr<JniPlatform>` of `Utils.h` followed by a
dereference. The handle must be live ("validity is a caller obligation"). -/
def derefJniPlatform (ptr : Nat) : M JniPlatform := fun w =>
  match findObject ptr w.heap with
  | some obj => Res.ok obj w
  | none => Res.undefined

/-- An assignment through a `JniPlatform*`. -/
def assignJniPlatform (ptr : Nat) (f : JniPlatform → JniPlatform) : M Unit := fun w =>
  match findObject ptr w.heap with
  | some _ => Res.ok () { w with heap := updateObject ptr f w.heap }
  | none => Res.undefined

/-- The function `GetPlatformRef` (lines 59-62): dereferences the handle and then its
`platform` pointer. -/
def GetPlatformRef (ptr : Nat) : M Platform := do
  let obj ← derefJniPlatform ptr
  match obj.platform with
  | some platform => pure platform
  | none => undefinedBehaviour

/-- The function `TransformAppInfo` (lines 46-57). -/
def TransformAppInfo (env : Env) (jAppInfo : JObject) (appInfo : AppInfo) : AppInfo :=
  { appInfo with
    application := env.JniGetStringField jAppInfo "application"
    applicationVersion := env.JniGetStringField jAppInfo "applicationVersion"
    locale := env.JniGetStringField jAppInfo "locale"
    name := env.JniGetStringField jAppInfo "name"
    version := env.JniGetStringField jAppInfo "version"
    developmentBuild := env.JniGetBooleanField jAppInfo "developmentBuild" }

/-- The statement `if (logSystem) platformBuilder.logSystem.reset(...)` (lines 72-75). -/
def overrideLogSystem (logSystem : Option JObject) (builder : DefaultPlatformBuilder) :
    DefaultPlatformBuilder :=
  match logSystem with
  | some sink => { builder with logSystem := some { callbackObject := sink } }
  | none => builder

/-- The statement `if (webRequest) platformBuilder.CreateDefaultWebRequest(...)`
(lines 76-79). -/
def overrideWebRequest (env : Env) (webRequest : Option JObject)
    (builder : DefaultPlatformBuilder) : M DefaultPlatformBuilder :=
  match webRequest with
  | some sink => do
    call (env.CreateDefaultWebRequest { callbackObject := sink })
    pure { builder with webRequest := some { callbackObject := sink } }
  | none => pure builder

/-- The statement `if (jBasePath) platformBuilder.CreateDefaultFileSystem(...)`
(lines 80-83). -/
def overrideFileSystem (env : Env) (jBasePath : Option JObject)
    (builder : DefaultPlatformBuilder) : M DefaultPlatformBuilder :=
  match jBasePath with
  | some jstr => do
    call (env.CreateDefaultFileSystem (env.JniJavaToStdString jstr))
    pure { builder with fileSystem := some (env.JniJavaToStdString jstr) }
  | none => pure builder

/-- The call `platformBuilder.CreatePlatform()` (line 84): the new platform takes over
the components of the builder. -/
def CreatePlatform (env : Env) (builder : DefaultPlatformBuilder) : M Platform := do
  call (env.CreatePlatform builder)
  pure
    { logSystem := builder.logSystem
      webRequest := builder.webRequest
      fileSystem := builder.fileSystem }

/-- The body of the `try` block of `JniCtor` (lines 69-85). -/
def JniCtorBody (env : Env) (logSystem webRequest jBasePath : Option JObject) : M Nat := do
  let jniPlatform ← newJniPlatform
  let builder0 : DefaultPlatformBuilder := {}
  let scheduler ← call env.GetDefaultAsyncExecutor
  assignJniPlatform jniPlatform (fun obj => { obj with scheduler := some scheduler })
  let builder1 := overrideLogSystem logSystem builder0
  let builder2 ← overrideWebRequest env webRequest builder1
  let builder3 ← overrideFileSystem env jBasePath builder2
  let platform ← CreatePlatform env builder3
  assignJniPlatform jniPlatform (fun obj => { obj with platform := some platform })
  pure (JniPtrToLong jniPlatform)

/-- The entry point `JniCtor` (lines 64-88). -/
def JniCtor (env : Env) (logSystem webRequest jBasePath : Option JObject) : M Nat :=
  CATCH_THROW_AND_RETURN (JniCtorBody env logSystem webRequest jBasePath) 0

/-- The entry point `JniDtor` (lines 90-93): `delete` on the handle. Deleting a null
pointer does nothing. Otherwise the object is destroyed, together with the platform and
the scheduler reference it holds, and its storage is released. Destructors are
`noexcept`, so there is nothing to catch and the source has no `try` block. -/
def JniDtor (ptr : Nat) : M Unit :=
  if ptr = 0 then pure ()
  else do
    let _ ← derefJniPlatform ptr
    fun w => Res.ok () { w with heap := removeObject ptr w.heap }

/-- The implicit destructor of `V8IsolateHolder`: the class declares none, so
destruction is the destruction of its data members. -/
def V8IsolateHolder.destroy (self : V8IsolateHolder) : M Unit := fun w =>
  Res.ok () { w with isolates := releaseMembers self.members w.isolates }

/-- The entry point `JniSetUpJsEngine` (lines 95-110). -/
def JniSetUpJsEngine (env : Env) (ptr : Nat) (jAppInfo : JObject) (v8IsolatePtr : Nat) :
    M Unit :=
  CATCH_AND_THROW (do
    let appInfo : AppInfo := TransformAppInfo env jAppInfo {}
    let isolateProvider : Option V8IsolateHolder :=
      if v8IsolatePtr ≠ 0 then some { isolate := v8IsolatePtr } else none
    let platform ← GetPlatformRef ptr
    emit (Event.SetUpJsEngine platform appInfo isolateProvider)
    call (env.SetUpJsEngine platform appInfo isolateProvider))

/-- The entry point `JniGetJsEnginePtr` (lines 112-119). -/
def JniGetJsEnginePtr (env : Env) (ptr : Nat) : M Nat :=
  CATCH_THROW_AND_RETURN (do
    let platform ← GetPlatformRef ptr
    emit (Event.GetJsEngine platform)
    let jsEngine ← call (env.GetJsEngine platform)
    pure (JniPtrToLong jsEngine)) 0

/-- Invoking a `Scheduler` on a unit of work: the work is appended to the queue of
that scheduler. Invoking an empty `std::function` throws. -/
def invokeScheduler (scheduler : Option Scheduler) (task : SchedulerTask) : M Unit :=
  match scheduler with
  | some s => fun w => Res.ok () { w with pending := w.pending ++ [(s, task)] }
  | none => throwNative { what := "bad_function_call" }

/-- The body of the permission hook (lines 132-142): copy the optional argument, then
submit one unit of work to the captured scheduler. -/
def PermissionHook.invoke (self : PermissionHook) (allowedConnectionTypeArg : Option String)
    (doneCallback : DoneCallback) : M Unit :=
  let allowedConnectionType : Option String :=
    match allowedConnectionTypeArg with
    | some value => some value
    | none => none
  invokeScheduler self.scheduler
    { callback := self.callback
      allowedConnectionType := allowedConnectionType
      doneCallback := doneCallback }

/-- Modelled from the spec: `JniIsAllowedConnectionTypeCallback::Callback` of
`JniCallbacks.h`, which adapts "a managed predicate `(string?) -> bool`". The predicate
receives the argument as given, present or absent. Its boolean is returned; an
exception it raises "is caught at the marshaling boundary" and yields "a negative/deny
decision". -/
def JniIsAllowedConnectionTypeCallback.Callback (env : Env)
    (self : JniIsAllowedConnectionTypeCallback) (allowedConnectionType : Option String) :
    M Bool := fun w =>
  let result := env.isConnectionAllowed self.callbackObject allowedConnectionType w.trace
  let w1 : World :=
    { w with trace :=
        w.trace ++ [Event.managedCall self.callbackObject allowedConnectionType result] }
  match result with
  | ManagedResult.returned allowed => Res.ok allowed w1
  | ManagedResult.raised _ => Res.ok false w1

/-- The body of the unit of work (line 140):
`doneCallback(callback->Callback(allowedConnectionType.get()))`. -/
def SchedulerTask.run (env : Env) (self : SchedulerTask) : M Unit := do
  let allowed ← self.callback.Callback env self.allowedConnectionType
  emit (Event.done self.doneCallback allowed)

/-- The scheduler worker runs its oldest pending unit of work, if there is one. -/
def runNext (env : Env) : M Unit := fun w =>
  match w.pending with
  | [] => Res.ok () w
  | (_, task) :: rest => task.run env { w with pending := rest }

/-- The scheduler worker runs its oldest pending unit of work, the given number of
times. -/
def runNextTimes (env : Env) : Nat → M Unit
  | 0 => pure ()
  | n + 1 => do
    runNext env
    runNextTimes env n

/-- Run every unit of work that has been submitted, in submission order. -/
def runPending (env : Env) : M Unit := fun w =>
  runNextTimes env w.pending.length w

/-- The entry point `JniSetUpFilterEngine` (lines 121-147). -/
def JniSetUpFilterEngine (env : Env) (ptr : Nat)
    (jIsSubscriptionDownloadAllowedCallback : Option JObject) : M Unit :=
  CATCH_AND_THROW (do
    let creationParameters0 : CreationParameters := {}
    let creationParameters : CreationParameters ←
      match jIsSubscriptionDownloadAllowedCallback with
      | some jCallback => do
        let callback : JniIsAllowedConnectionTypeCallback := { callbackObject := jCallback }
        let obj ← derefJniPlatform ptr
        let scheduler := obj.scheduler
        pure { creationParameters0 with
          isSubscriptionDownloadAllowedCallback :=
            some { scheduler := scheduler, callback := callback } }
      | none => pure creationParameters0
    let platform ← GetPlatformRef ptr
    emit (Event.CreateFilterEngineAsync platform creationParameters)
    call (env.CreateFilterEngineAsync platform creationParameters))

/-- The entry point `JniEnsureFilterEngine` (lines 149-156). -/
def JniEnsureFilterEngine (env : Env) (ptr : Nat) : M Unit :=
  CATCH_AND_THROW (do
    let platform ← GetPlatformRef ptr
    emit (Event.GetFilterEngine platform)
    call (env.GetFilterEngine platform))

/-- One permission query: the optional argument and the completion continuation. -/
structure PermissionQuery where
  allowedConnectionTypeArg : Option String
  doneCallback : DoneCallback
deriving DecidableEq, Repr

/-- One step of an interleaving of the native engine, which raises permission queries
on the hook, and the scheduler worker, which runs pending units of work. -/
inductive Activity where
  | raise (query : PermissionQuery)
  | runNext
deriving DecidableEq, Repr

/-- Execute an interleaving of query raising and scheduler progress. -/
def interleave (env : Env) (hook : PermissionHook) : List Activity → M Unit
  | [] => pure ()
  | Activity.raise query :: rest => do
    hook.invoke query.allowedConnectionTypeArg query.doneCallback
    interleave env hook rest
  | Activity.runNext :: rest => do
    runNext env
    interleave env hook rest

/-- The queries an interleaving raises, in order. -/
def raisedQueries : List Activity → List PermissionQuery
  | [] => []
  | Activity.raise query :: rest => query :: raisedQueries rest
  | Activity.runNext :: rest => raisedQueries rest

/-- The boolean a completion continuation receives for a predicate outcome: the
boolean the predicate returned, or the deny decision when it raised. -/
def ManagedResult.decision : ManagedResult → Bool
  | ManagedResult.returned allowed => allowed
  | ManagedResult.raised _ => false

/-- Expected completion of a list of queries, in the words of the spec: for each query,
in order, the managed predicate is invoked once on that query's argument, and then
that query's continuation is invoked once with the predicate's decision. `history` is
the trace at the moment the first of them runs. -/
def expectedCompletions (env : Env) (callbackObject : JObject) :
    List Event → List PermissionQuery → List Event
  | _, [] => []
  | history, query :: rest =>
    let result := env.isConnectionAllowed callbackObject query.allowedConnectionTypeArg history
    let events :=
      [Event.managedCall callbackObject query.allowedConnectionTypeArg result,
       Event.done query.doneCallback result.decision]
    events ++ expectedCompletions env callbackObject (history ++ events) rest

/-- The arguments with which the managed predicate was invoked, in order. -/
def deliveredArguments : List Event → List (Option String)
  | [] => []
  | Event.managedCall _ arg _ :: rest => arg :: deliveredArguments rest
  | _ :: rest => deliveredArguments rest

/-- The completion calls made, in order: continuation and boolean. -/
def completionCalls : List Event → List (DoneCallback × Bool)
  | [] => []
  | Event.done doneCallback allowed :: rest => (doneCallback, allowed) :: completionCalls rest
  | _ :: rest => completionCalls rest

/-- An environment in which every library call succeeds and the managed predicate
raises on an absent argument and otherwise allows short connection types while the
trace is short. -/
def sampleEnv : Env where
  GetDefaultAsyncExecutor := Except.ok 7
  CreateDefaultWebRequest := fun _ => Except.ok ()
  CreateDefaultFileSystem := fun _ => Except.ok ()
  CreatePlatform := fun _ => Except.ok ()
  SetUpJsEngine := fun _ _ _ => Except.ok ()
  GetJsEngine := fun _ => Except.ok 4096
  CreateFilterEngineAsync := fun _ _ => Except.ok ()
  GetFilterEngine := fun _ => Except.ok ()
  JniGetStringField := fun _ name => name
  JniGetBooleanField := fun _ _ => false
  JniJavaToStdString := fun _ => "/data/adblock"
  isConnectionAllowed := fun _ arg history =>
    match arg with
    | none => ManagedResult.raised "NullPointerException"
    | some value => ManagedResult.returned (decide (value.length + history.length < 6))

/-- An environment in which every library call after the executor lookup throws. -/
def failingEnv : Env :=
  { sampleEnv with
    CreateDefaultWebRequest := fun _ => Except.error { what := "web request" }
    CreateDefaultFileSystem := fun _ => Except.error { what := "file system" }
    CreatePlatform := fun _ => Except.error { what := "create platform" }
    SetUpJsEngine := fun _ _ _ => Except.error { what := "set up js engine" }
    GetJsEngine := fun _ => Except.error { what := "js engine" }
    CreateFilterEngineAsync := fun _ _ => Except.error { what := "create filter engine" }
    GetFilterEngine := fun _ => Except.error { what := "filter engine" } }

/-- A fully constructed handle object. -/
def sampleObject : JniPlatform :=
  { scheduler := some 7
    platform := some { logSystem := none, webRequest := none, fileSystem := none } }

/-- A world with one live handle, at address 1, and one live isolate owned by the
caller, at address 4096. -/
def sampleWorld : World :=
  { heap := [(1, sampleObject)], isolates := [4096] }

/-- A second fully constructed handle object, with another scheduler and a platform
rooted at a base path. -/
def secondObject : JniPlatform :=
  { scheduler := some 8
    platform := some { logSystem := none, webRequest := none, fileSystem := some "/data/second" } }

/-- A world with two live handles, at addresses 1 and 2, whose platforms differ. -/
def twoHandleWorld : World :=
  { heap := [(1, sampleObject), (2, secondObject)], isolates := [4096] }

/-! ## Calculation rules for the native-computation monad -/

theorem bind_eq {α β : Type} (x : M α) (f : α → M β) : (x >>= f) = M.bind x f := rfl

theorem pure_eq {α : Type} (a : α) : (pure a : M α) = M.pure a := rfl

theorem M.bind_assoc {α β γ : Type} (x : M α) (f : α → M β) (g : β → M γ) :
    M.bind (M.bind x f) g = M.bind x (fun a => M.bind (f a) g) := by
  funext w
  simp only [M.bind]
  cases x w <;> rfl

theorem M.pure_bind {α β : Type} (a : α) (f : α → M β) : M.bind (M.pure a) f = f a := rfl

theorem call_bind {α β : Type} (o : Except NativeException α) (f : α → M β) :
    M.bind (call o) f = fun w =>
      match o with
      | Except.ok a => f a w
      | Except.error e => Res.throw e w := by
  cases o <;> rfl

theorem call_apply {α : Type} (o : Except NativeException α) (w : World) :
    call o w =
      match o with
      | Except.ok a => Res.ok a w
      | Except.error e => Res.throw e w := by
  cases o <;> rfl

theorem findObject_head (address : Nat) (obj : JniPlatform) (heap : List (Nat × JniPlatform)) :
    findObject address ((address, obj) :: heap) = some obj := by
  simp [findObject]

theorem freshAddress_ne_zero (heap : List (Nat × JniPlatform)) : freshAddress heap ≠ 0 := by
  simp [freshAddress]

/-! ## JniCtor -/

/-- The outcome of the `try` block of `JniCtor`: either every step succeeded and the new
object is fully built, or a step threw and the new object is left on the heap without a
platform. -/
theorem JniCtorBody_outcome (env : Env) (logSystem webRequest jBasePath : Option JObject)
    (w : World) :
    (∃ s, env.GetDefaultAsyncExecutor = Except.ok s ∧
      JniCtorBody env logSystem webRequest jBasePath w =
        Res.ok (freshAddress w.heap)
          { w with heap := (freshAddress w.heap,
              { scheduler := some s
                platform := some
                  { logSystem := logSystem.map (fun sink => { callbackObject := sink })
                    webRequest := webRequest.map (fun sink => { callbackObject := sink })
                    fileSystem := jBasePath.map env.JniJavaToStdString } }) :: w.heap }) ∨
    (∃ e obj, obj.platform = none ∧
      JniCtorBody env logSystem webRequest jBasePath w =
        Res.throw e { w with heap := (freshAddress w.heap, obj) :: w.heap }) := by
  generalize hres : JniCtorBody env logSystem webRequest jBasePath w = res
  unfold JniCtorBody at hres
  cases logSystem <;> cases webRequest <;> cases jBasePath <;>
    simp only [overrideLogSystem, overrideWebRequest, overrideFileSystem, CreatePlatform,
      bind_eq, pure_eq, M.bind_assoc, M.pure_bind] at hres <;>
    simp only [call_bind] at hres <;>
    simp only [M.bind, M.pure, newJniPlatform, assignJniPlatform, findObject, updateObject,
      if_true, JniPtrToLong] at hres <;>
    (repeat' split at hres) <;>
    subst hres <;>
    simp_all

/-- When every builder step that is executed succeeds, the `try` block of `JniCtor`
returns the fully built object. -/
theorem JniCtorBody_success (env : Env) (logSystem webRequest jBasePath : Option JObject)
    (w : World) (s : Scheduler)
    (hExecutor : env.GetDefaultAsyncExecutor = Except.ok s)
    (hWebRequest : ∀ sink, webRequest = some sink →
      env.CreateDefaultWebRequest { callbackObject := sink } = Except.ok ())
    (hFileSystem : ∀ jstr, jBasePath = some jstr →
      env.CreateDefaultFileSystem (env.JniJavaToStdString jstr) = Except.ok ())
    (hPlatform : env.CreatePlatform
      { logSystem := logSystem.map (fun sink => { callbackObject := sink })
        webRequest := webRequest.map (fun sink => { callbackObject := sink })
        fileSystem := jBasePath.map env.JniJavaToStdString } = Except.ok ()) :
    JniCtorBody env logSystem webRequest jBasePath w =
      Res.ok (freshAddress w.heap)
        { w with heap := (freshAddress w.heap,
            { scheduler := some s
              platform := some
                { logSystem := logSystem.map (fun sink => { callbackObject := sink })
                  webRequest := webRequest.map (fun sink => { callbackObject := sink })
                  fileSystem := jBasePath.map env.JniJavaToStdString } }) :: w.heap } := by
  unfold JniCtorBody
  cases logSystem <;> cases webRequest <;> cases jBasePath <;>
    simp only [overrideLogSystem, overrideWebRequest, overrideFileSystem, CreatePlatform,
      bind_eq, pure_eq, M.bind_assoc, M.pure_bind] <;>
    simp only [call_bind] <;>
    simp_all [M.bind, M.pure, newJniPlatform, assignJniPlatform, findObject, updateObject,
      JniPtrToLong]

/-- When a builder step that is executed throws, so does the `try` block of `JniCtor`,
and the object allocated at line 69 is still on the heap. -/
theorem JniCtorBody_failure (env : Env) (logSystem webRequest jBasePath : Option JObject)
    (w : World)
    (hFail : (∃ e, env.GetDefaultAsyncExecutor = Except.error e) ∨
      (∃ sink e, webRequest = some sink ∧
        env.CreateDefaultWebRequest { callbackObject := sink } = Except.error e) ∨
      (∃ jstr e, jBasePath = some jstr ∧
        env.CreateDefaultFileSystem (env.JniJavaToStdString jstr) = Except.error e) ∨
      (∃ e, env.CreatePlatform
        { logSystem := logSystem.map (fun sink => { callbackObject := sink })
          webRequest := webRequest.map (fun sink => { callbackObject := sink })
          fileSystem := jBasePath.map env.JniJavaToStdString } = Except.error e)) :
    ∃ e obj, obj.platform = none ∧
      JniCtorBody env logSystem webRequest jBasePath w =
        Res.throw e { w with heap := (freshAddress w.heap, obj) :: w.heap } := by
  rcases JniCtorBody_outcome env logSystem webRequest jBasePath w with ⟨s, hs, hok⟩ | h
  · exfalso
    generalize hres : JniCtorBody env logSystem webRequest jBasePath w = res at hok
    unfold JniCtorBody at hres
    rcases hFail with ⟨e, he⟩ | ⟨sink, e, hsink, he⟩ | ⟨jstr, e, hjstr, he⟩ | ⟨e, he⟩
    · simp [hs] at he
    all_goals
      cases logSystem <;> cases webRequest <;> cases jBasePath <;>
      simp only [overrideLogSystem, overrideWebRequest, overrideFileSystem, CreatePlatform,
        bind_eq, pure_eq, M.bind_assoc, M.pure_bind] at hres <;>
      simp only [call_bind] at hres <;>
      simp only [M.bind, M.pure, newJniPlatform, assignJniPlatform, findObject, updateObject,
        if_true, JniPtrToLong] at hres <;>
      (repeat' split at hres) <;>
      subst hres <;>
      simp_all
  · exact h

/-- The entry point `JniCtor` in terms of its `try` block. -/
theorem JniCtor_eq (env : Env) (logSystem webRequest jBasePath : Option JObject) (w : World) :
    JniCtor env logSystem webRequest jBasePath w =
      match JniCtorBody env logSystem webRequest jBasePath w with
      | Res.ok handle w1 => Res.ok handle w1
      | Res.throw e w1 => Res.ok 0 { w1 with javaException := some e.what }
      | Res.undefined => Res.undefined := by
  simp only [JniCtor, CATCH_THROW_AND_RETURN, tryCatchAll, JniThrowException, bind_eq, pure_eq,
    M.bind, M.pure]
  cases JniCtorBody env logSystem webRequest jBasePath w <;> rfl

/-! ## The entry points that take a handle -/

theorem GetPlatformRef_live (ptr : Nat) (w : World) (obj : JniPlatform) (platform : Platform)
    (hobj : findObject ptr w.heap = some obj) (hplatform : obj.platform = some platform) :
    GetPlatformRef ptr w = Res.ok platform w := by
  simp [GetPlatformRef, derefJniPlatform, bind_eq, pure_eq, M.bind, M.pure, hobj, hplatform]

theorem GetPlatformRef_bind {β : Type} (ptr : Nat) (w : World) (obj : JniPlatform)
    (platform : Platform) (f : Platform → M β)
    (hobj : findObject ptr w.heap = some obj) (hplatform : obj.platform = some platform) :
    M.bind (GetPlatformRef ptr) f w = f platform w := by
  simp [M.bind, GetPlatformRef_live ptr w obj platform hobj hplatform]

/-- The entry point `JniSetUpJsEngine` on a live handle. -/
theorem JniSetUpJsEngine_eq (env : Env) (ptr : Nat) (jAppInfo : JObject) (v8IsolatePtr : Nat)
    (w : World) (obj : JniPlatform) (platform : Platform)
    (hobj : findObject ptr w.heap = some obj) (hplatform : obj.platform = some platform) :
    JniSetUpJsEngine env ptr jAppInfo v8IsolatePtr w =
      Res.ok ()
        { w with
          trace := w.trace ++
            [Event.SetUpJsEngine platform (TransformAppInfo env jAppInfo {})
              (if v8IsolatePtr ≠ 0 then some { isolate := v8IsolatePtr } else none)]
          javaException :=
            match env.SetUpJsEngine platform (TransformAppInfo env jAppInfo {})
                (if v8IsolatePtr ≠ 0 then some { isolate := v8IsolatePtr } else none) with
            | Except.ok _ => w.javaException
            | Except.error e => some e.what } := by
  simp only [JniSetUpJsEngine, CATCH_AND_THROW, tryCatchAll, bind_eq,
    GetPlatformRef_bind ptr w obj platform _ hobj hplatform]
  simp only [M.bind, emit, call_apply, JniThrowException]
  cases env.SetUpJsEngine platform (TransformAppInfo env jAppInfo {})
    (if v8IsolatePtr ≠ 0 then some { isolate := v8IsolatePtr } else none) <;> rfl

/-- The entry point `JniGetJsEnginePtr` on a live handle. -/
theorem JniGetJsEnginePtr_eq (env : Env) (ptr : Nat) (w : World) (obj : JniPlatform)
    (platform : Platform)
    (hobj : findObject ptr w.heap = some obj) (hplatform : obj.platform = some platform) :
    JniGetJsEnginePtr env ptr w =
      match env.GetJsEngine platform with
      | Except.ok jsEngine =>
        Res.ok jsEngine { w with trace := w.trace ++ [Event.GetJsEngine platform] }
      | Except.error e =>
        Res.ok 0
          { w with
            trace := w.trace ++ [Event.GetJsEngine platform]
            javaException := some e.what } := by
  simp only [JniGetJsEnginePtr, CATCH_THROW_AND_RETURN, tryCatchAll, bind_eq, pure_eq,
    GetPlatformRef_bind ptr w obj platform _ hobj hplatform]
  simp only [M.bind, M.pure, emit, call_apply, JniThrowException, JniPtrToLong]
  cases env.GetJsEngine platform <;> rfl

/-- The entry point `JniSetUpFilterEngine` on a live handle. -/
theorem JniSetUpFilterEngine_eq (env : Env) (ptr : Nat) (jCallback : Option JObject)
    (w : World) (obj : JniPlatform) (platform : Platform)
    (hobj : findObject ptr w.heap = some obj) (hplatform : obj.platform = some platform) :
    JniSetUpFilterEngine env ptr jCallback w =
      Res.ok ()
        { w with
          trace := w.trace ++
            [Event.CreateFilterEngineAsync platform
              { isSubscriptionDownloadAllowedCallback :=
                  jCallback.map (fun jcb =>
                    { scheduler := obj.scheduler, callback := { callbackObject := jcb } }) }]
          javaException :=
            match env.CreateFilterEngineAsync platform
                { isSubscriptionDownloadAllowedCallback :=
                    jCallback.map (fun jcb =>
                      { scheduler := obj.scheduler, callback := { callbackObject := jcb } }) } with
            | Except.ok _ => w.javaException
            | Except.error e => some e.what } := by
  cases jCallback with
  | none =>
    simp only [JniSetUpFilterEngine, CATCH_AND_THROW, tryCatchAll, bind_eq, pure_eq,
      M.pure_bind, GetPlatformRef_bind ptr w obj platform _ hobj hplatform]
    simp only [M.bind, emit, call_apply, JniThrowException, Option.map]
    cases env.CreateFilterEngineAsync platform { isSubscriptionDownloadAllowedCallback := none }
      <;> rfl
  | some jcb =>
    simp only [JniSetUpFilterEngine, CATCH_AND_THROW, tryCatchAll, bind_eq, pure_eq,
      M.bind_assoc, M.pure_bind]
    simp only [M.bind, derefJniPlatform, hobj,
      GetPlatformRef_live ptr w obj platform hobj hplatform, emit, call_apply,
      JniThrowException, Option.map]
    cases env.CreateFilterEngineAsync platform
      { isSubscriptionDownloadAllowedCallback :=
          some { scheduler := obj.scheduler, callback := { callbackObject := jcb } } } <;> rfl

/-- The entry point `JniEnsureFilterEngine` on a live handle. -/
theorem JniEnsureFilterEngine_eq (env : Env) (ptr : Nat) (w : World) (obj : JniPlatform)
    (platform : Platform)
    (hobj : findObject ptr w.heap = some obj) (hplatform : obj.platform = some platform) :
    JniEnsureFilterEngine env ptr w =
      Res.ok ()
        { w with
          trace := w.trace ++ [Event.GetFilterEngine platform]
          javaException :=
            match env.GetFilterEngine platform with
            | Except.ok _ => w.javaException
            | Except.error e => some e.what } := by
  simp only [JniEnsureFilterEngine, CATCH_AND_THROW, tryCatchAll, bind_eq,
    GetPlatformRef_bind ptr w obj platform _ hobj hplatform]
  simp only [M.bind, emit, call_apply, JniThrowException]
  cases env.GetFilterEngine platform <;> rfl

/-- The entry point `JniDtor` on a live handle: the object is removed from the heap
and nothing else changes. -/
theorem JniDtor_eq (ptr : Nat) (w : World) (obj : JniPlatform) (hptr : ptr ≠ 0)
    (hobj : findObject ptr w.heap = some obj) :
    JniDtor ptr w = Res.ok () { w with heap := removeObject ptr w.heap } := by
  simp only [JniDtor, hptr, if_false, bind_eq, M.bind, derefJniPlatform, hobj]

/-- No native exception leaves `JniDtor`, whatever the handle. -/
theorem JniDtor_ne_throw (ptr : Nat) (w : World) (e : NativeException) (w1 : World) :
    JniDtor ptr w ≠ Res.throw e w1 := by
  unfold JniDtor
  by_cases hptr : ptr = 0
  · simp [hptr, pure_eq, M.pure]
  · simp only [hptr, if_false, bind_eq, M.bind, derefJniPlatform]
    cases findObject ptr w.heap <;> simp

/-- No native exception leaves a body wrapped in `CATCH_AND_THROW`. -/
theorem CATCH_AND_THROW_ne_throw (body : M Unit) (w : World) (e : NativeException)
    (w1 : World) : CATCH_AND_THROW body w ≠ Res.throw e w1 := by
  simp only [CATCH_AND_THROW, tryCatchAll, JniThrowException]
  cases body w <;> simp

/-- No native exception leaves a body wrapped in `CATCH_THROW_AND_RETURN`. -/
theorem CATCH_THROW_AND_RETURN_ne_throw {α : Type} (body : M α) (retVal : α) (w : World)
    (e : NativeException) (w1 : World) :
    CATCH_THROW_AND_RETURN body retVal w ≠ Res.throw e w1 := by
  simp only [CATCH_THROW_AND_RETURN, tryCatchAll, JniThrowException, bind_eq, pure_eq,
    M.bind, M.pure]
  cases body w <;> simp

/-! ## The permission hook and the scheduler -/

/-- A call of the hook only appends one unit of work to the queue of its scheduler. -/
theorem PermissionHook_invoke_eq (hook : PermissionHook) (s : Scheduler)
    (hs : hook.scheduler = some s) (arg : Option String) (k : DoneCallback) (w : World) :
    hook.invoke arg k w =
      Res.ok ()
        { w with pending := w.pending ++
            [(s, { callback := hook.callback, allowedConnectionType := arg, doneCallback := k })] } := by
  cases arg <;> simp [PermissionHook.invoke, invokeScheduler, hs]

/-- Running a unit of work invokes the predicate once and then the continuation once. -/
theorem SchedulerTask_run_eq (env : Env) (task : SchedulerTask) (w : World) :
    task.run env w =
      Res.ok ()
        { w with trace := w.trace ++
            [Event.managedCall task.callback.callbackObject task.allowedConnectionType
                (env.isConnectionAllowed task.callback.callbackObject
                  task.allowedConnectionType w.trace),
              Event.done task.doneCallback
                (env.isConnectionAllowed task.callback.callbackObject
                  task.allowedConnectionType w.trace).decision] } := by
  simp only [SchedulerTask.run, bind_eq, M.bind, JniIsAllowedConnectionTypeCallback.Callback,
    emit]
  cases env.isConnectionAllowed task.callback.callbackObject task.allowedConnectionType w.trace
    <;> simp [ManagedResult.decision]

/-- Running as many units as there are pending empties the queue and completes the
pending queries in order. -/
theorem runNextTimes_pending (env : Env) (callback : JniIsAllowedConnectionTypeCallback) :
    ∀ (queries : List PermissionQuery) (w : World),
      w.pending.map Prod.snd = queries.map (fun q =>
        { callback := callback
          allowedConnectionType := q.allowedConnectionTypeArg
          doneCallback := q.doneCallback }) →
      runNextTimes env queries.length w =
        Res.ok ()
          { w with
            pending := []
            trace := w.trace ++
              expectedCompletions env callback.callbackObject w.trace queries } := by
  intro queries
  induction queries with
  | nil =>
    intro w h
    have hp : w.pending = [] := by simpa using h
    simp [runNextTimes, pure_eq, M.pure, expectedCompletions, ← hp]
  | cons q rest ih =>
    intro w h
    rcases hw : w.pending with _ | ⟨⟨s, task⟩, tl⟩
    · simp [hw] at h
    · simp only [hw, List.map_cons, List.cons.injEq] at h
      obtain ⟨htask, htl⟩ := h
      simp only [List.length_cons, runNextTimes, bind_eq, M.bind, runNext, hw,
        SchedulerTask_run_eq]
      rw [ih _ htl]
      simp [expectedCompletions, htask, List.append_assoc]

theorem M.bind_of_ok {α β : Type} (x : M α) (f : α → M β) (w w1 : World) (a : α)
    (h : x w = Res.ok a w1) : M.bind x f w = f a w1 := by
  simp [M.bind, h]

/-- Whatever the interleaving of query raising and scheduler progress, once every
pending unit has been run the queries have been completed in the order raised. -/
theorem interleave_then_runPending (env : Env) (hook : PermissionHook) (s : Scheduler)
    (hs : hook.scheduler = some s) :
    ∀ (activities : List Activity) (queued : List PermissionQuery) (w : World),
      w.pending.map Prod.snd = queued.map (fun q =>
        { callback := hook.callback
          allowedConnectionType := q.allowedConnectionTypeArg
          doneCallback := q.doneCallback }) →
      M.bind (interleave env hook activities) (fun _ => runPending env) w =
        Res.ok ()
          { w with
            pending := []
            trace := w.trace ++
              expectedCompletions env hook.callback.callbackObject w.trace
                (queued ++ raisedQueries activities) } := by
  intro activities
  induction activities with
  | nil =>
    intro queued w h
    have hlen : w.pending.length = queued.length := by
      simpa using congrArg List.length h
    simp only [interleave, pure_eq, M.pure_bind, runPending, hlen, raisedQueries,
      List.append_nil]
    exact runNextTimes_pending env hook.callback queued w h
  | cons activity rest ih =>
    intro queued w h
    cases activity with
    | raise q =>
      simp only [interleave, bind_eq, M.bind_assoc, raisedQueries]
      rw [M.bind_of_ok _ _ _ _ _
        (PermissionHook_invoke_eq hook s hs q.allowedConnectionTypeArg q.doneCallback w)]
      rw [ih (queued ++ [q]) _ (by simp [h])]
      simp
    | runNext =>
      simp only [interleave, bind_eq, M.bind_assoc, raisedQueries]
      rcases hw : w.pending with _ | ⟨⟨s1, task⟩, tl⟩
      · have hq : queued = [] := by simpa [hw] using h.symm
        subst hq
        have hrun : runNext env w = Res.ok () w := by simp [runNext, hw]
        rw [M.bind_of_ok _ _ _ _ _ hrun, ih [] w h]
      · rcases queued with _ | ⟨q, queued1⟩
        · simp [hw] at h
        · simp only [hw, List.map_cons, List.cons.injEq] at h
          obtain ⟨htask, htl⟩ := h
          have hrun : runNext env w = task.run env { w with pending := tl } := by
            simp [runNext, hw]
          rw [SchedulerTask_run_eq] at hrun
          rw [M.bind_of_ok _ _ _ _ _ hrun, ih queued1 _ htl]
          simp [expectedCompletions, htask, List.append_assoc]

theorem deliveredArguments_append (xs ys : List Event) :
    deliveredArguments (xs ++ ys) = deliveredArguments xs ++ deliveredArguments ys := by
  induction xs with
  | nil => rfl
  | cons ev rest ih => cases ev <;> simp [deliveredArguments, ih]

theorem completionCalls_append (xs ys : List Event) :
    completionCalls (xs ++ ys) = completionCalls xs ++ completionCalls ys := by
  induction xs with
  | nil => rfl
  | cons ev rest ih => cases ev <;> simp [completionCalls, ih]

/-- In the expected completion of a list of queries every continuation appears once,
in the order of the queries. -/
theorem completionCalls_expectedCompletions (env : Env) (callbackObject : JObject) :
    ∀ (queries : List PermissionQuery) (history : List Event),
      (completionCalls (expectedCompletions env callbackObject history queries)).map Prod.fst =
        queries.map (fun q => q.doneCallback) := by
  intro queries
  induction queries with
  | nil => intro history; rfl
  | cons q rest ih =>
    intro history
    simp [expectedCompletions, completionCalls, ih]

/-- One query raised on an idle scheduler and then run. -/
theorem invoke_then_runPending (env : Env) (hook : PermissionHook) (s : Scheduler)
    (hs : hook.scheduler = some s) (arg : Option String) (k : DoneCallback) (w : World)
    (hidle : w.pending = []) :
    (hook.invoke arg k >>= fun _ => runPending env) w =
      Res.ok ()
        { w with
          pending := []
          trace := w.trace ++
            [Event.managedCall hook.callback.callbackObject arg
                (env.isConnectionAllowed hook.callback.callbackObject arg w.trace),
              Event.done k
                (env.isConnectionAllowed hook.callback.callbackObject arg w.trace).decision] } := by
  rw [bind_eq, M.bind_of_ok _ _ _ _ _ (PermissionHook_invoke_eq hook s hs arg k w)]
  simp [runPending, hidle, runNextTimes, bind_eq, pure_eq, M.bind, M.pure, runNext,
    SchedulerTask_run_eq]

/-! ## The claims -/

/-- C1: `JniCtor` either returns a non-zero handle whose `JniPlatform` has both its
scheduler and its platform set, raising no managed exception, or it raises a managed
exception and returns 0. It never returns a non-zero handle whose platform or scheduler
is unset. This holds for every combination of optional inputs and every outcome of the
builder steps. -/
theorem JniCtor_atomic (env : Env) (logSystem webRequest jBasePath : Option JObject)
    (w : World) :
    ((∃ handle w1 s platform,
        JniCtor env logSystem webRequest jBasePath w = Res.ok handle w1 ∧ handle ≠ 0 ∧
        findObject handle w1.heap = some { scheduler := some s, platform := some platform } ∧
        w1.javaException = w.javaException) ∨
      (∃ w1 message,
        JniCtor env logSystem webRequest jBasePath w = Res.ok 0 w1 ∧
        w1.javaException = some message)) ∧
    (∀ handle w1, JniCtor env logSystem webRequest jBasePath w = Res.ok handle w1 →
      handle ≠ 0 →
      ∃ s platform,
        findObject handle w1.heap = some { scheduler := some s, platform := some platform }) := by
  rw [JniCtor_eq]
  rcases JniCtorBody_outcome env logSystem webRequest jBasePath w with
    ⟨s, _, hok⟩ | ⟨e, obj, _, hthrow⟩
  · rw [hok]
    refine ⟨Or.inl ⟨_, _, s, _, rfl, freshAddress_ne_zero _, findObject_head _ _ _, rfl⟩, ?_⟩
    intro handle w1 h _
    simp only [Res.ok.injEq] at h
    obtain ⟨rfl, rfl⟩ := h
    exact ⟨s, _, findObject_head _ _ _⟩
  · rw [hthrow]
    refine ⟨Or.inr ⟨_, e.what, rfl, rfl⟩, ?_⟩
    intro handle w1 h hne
    simp only [Res.ok.injEq] at h
    exact absurd h.1.symm hne

/-- C8: when every builder step succeeds, the default async executor of the builder is
stored as the scheduler of the handle, the log system is the wrapper of the log sink
exactly when a log sink is supplied, the web request is built from the network sink
exactly when one is supplied, and the file system is rooted at the converted base path
exactly when one is supplied. Each component depends on its own input only. -/
theorem JniCtor_overrides (env : Env) (logSystem webRequest jBasePath : Option JObject)
    (w : World) (s : Scheduler)
    (hExecutor : env.GetDefaultAsyncExecutor = Except.ok s)
    (hWebRequest : ∀ sink, webRequest = some sink →
      env.CreateDefaultWebRequest { callbackObject := sink } = Except.ok ())
    (hFileSystem : ∀ jstr, jBasePath = some jstr →
      env.CreateDefaultFileSystem (env.JniJavaToStdString jstr) = Except.ok ())
    (hPlatform : env.CreatePlatform
      { logSystem := logSystem.map (fun sink => { callbackObject := sink })
        webRequest := webRequest.map (fun sink => { callbackObject := sink })
        fileSystem := jBasePath.map env.JniJavaToStdString } = Except.ok ()) :
    ∃ handle w1 platform,
      JniCtor env logSystem webRequest jBasePath w = Res.ok handle w1 ∧
      findObject handle w1.heap = some { scheduler := some s, platform := some platform } ∧
      platform.logSystem = logSystem.map (fun sink => { callbackObject := sink }) ∧
      platform.webRequest = webRequest.map (fun sink => { callbackObject := sink }) ∧
      platform.fileSystem = jBasePath.map env.JniJavaToStdString ∧
      (platform.logSystem.isSome ↔ logSystem.isSome) ∧
      (platform.webRequest.isSome ↔ webRequest.isSome) ∧
      (platform.fileSystem.isSome ↔ jBasePath.isSome) := by
  rw [JniCtor_eq, JniCtorBody_success env logSystem webRequest jBasePath w s hExecutor
    hWebRequest hFileSystem hPlatform]
  refine ⟨_, _, _, rfl, findObject_head _ _ _, rfl, rfl, rfl, ?_, ?_, ?_⟩ <;> simp

/-- Witness of C8: a log sink and a base path, no network sink. -/
theorem JniCtor_overrides_witness :
    sampleEnv.GetDefaultAsyncExecutor = Except.ok 7 ∧
    sampleEnv.CreateDefaultFileSystem (sampleEnv.JniJavaToStdString 4) = Except.ok () ∧
    sampleEnv.CreatePlatform
      { logSystem := some { callbackObject := 3 }
        webRequest := none
        fileSystem := some (sampleEnv.JniJavaToStdString 4) } = Except.ok () ∧
    ∃ handle w1 platform,
      JniCtor sampleEnv (some 3) none (some 4) sampleWorld = Res.ok handle w1 ∧
      findObject handle w1.heap = some { scheduler := some 7, platform := some platform } ∧
      platform.logSystem = some { callbackObject := 3 } ∧
      platform.webRequest = none ∧
      platform.fileSystem = some "/data/adblock" ∧
      (platform.logSystem.isSome ↔ (some 3 : Option JObject).isSome) ∧
      (platform.webRequest.isSome ↔ (none : Option JObject).isSome) ∧
      (platform.fileSystem.isSome ↔ (some 4 : Option JObject).isSome) :=
  ⟨rfl, rfl, rfl, JniCtor_overrides sampleEnv (some 3) none (some 4) sampleWorld 7 rfl
    (fun _ _ => rfl) (fun _ _ => rfl) rfl⟩

/-- Support for C10: whenever an executed builder step throws, the object allocated at
line 69 is still on the heap when `JniCtor` returns. -/
theorem JniCtor_failure_keeps_object (env : Env)
    (logSystem webRequest jBasePath : Option JObject) (w : World)
    (hFail : (∃ e, env.GetDefaultAsyncExecutor = Except.error e) ∨
      (∃ sink e, webRequest = some sink ∧
        env.CreateDefaultWebRequest { callbackObject := sink } = Except.error e) ∨
      (∃ jstr e, jBasePath = some jstr ∧
        env.CreateDefaultFileSystem (env.JniJavaToStdString jstr) = Except.error e) ∨
      (∃ e, env.CreatePlatform
        { logSystem := logSystem.map (fun sink => { callbackObject := sink })
          webRequest := webRequest.map (fun sink => { callbackObject := sink })
          fileSystem := jBasePath.map env.JniJavaToStdString } = Except.error e)) :
    ∃ w1 obj, JniCtor env logSystem webRequest jBasePath w = Res.ok 0 w1 ∧
      w1.heap = (freshAddress w.heap, obj) :: w.heap ∧ obj.platform = none ∧
      w1.heap ≠ w.heap := by
  obtain ⟨e, obj, hobj, hthrow⟩ :=
    JniCtorBody_failure env logSystem webRequest jBasePath w hFail
  rw [JniCtor_eq, hthrow]
  refine ⟨_, obj, rfl, rfl, hobj, ?_⟩
  intro h
  have hlen := congrArg List.length h
  simp at hlen

/-- C10, evaluated at the failing input: `CreatePlatform` throws after the `JniPlatform`
object has been allocated and has received the scheduler. `JniCtor` returns 0 with a
managed exception pending, and the partially built object is still live, so the set of
live native objects is not the one before the call. -/
theorem JniCtor_failure_leaks :
    JniCtor failingEnv none none none sampleWorld =
      Res.ok 0
        { sampleWorld with
          heap := (2, { scheduler := some 7, platform := none }) :: sampleWorld.heap
          javaException := some "create platform" } ∧
    (2, ({ scheduler := some 7, platform := none } : JniPlatform)) :: sampleWorld.heap ≠
      sampleWorld.heap := by
  refine ⟨rfl, ?_⟩
  intro h
  have hlen := congrArg List.length h
  simp at hlen

/-- C7: on a live handle `JniSetUpFilterEngine` issues exactly one
`CreateFilterEngineAsync` request, and the platform that receives it is the platform
stored in the object of that handle. With a null callback the creation parameters carry
no permission hook; with a callback they carry a hook that wraps exactly that callback
and the scheduler of the handle. In both cases nothing is submitted to the scheduler and
the managed callback is not invoked; a managed exception is pending afterwards only if
the request itself failed. -/
theorem JniSetUpFilterEngine_request (env : Env) (ptr : Nat)
    (jCallback : Option JObject) (w : World) (obj : JniPlatform) (platform : Platform)
    (hobj : findObject ptr w.heap = some obj) (hplatform : obj.platform = some platform) :
    ∃ w1 parameters,
      JniSetUpFilterEngine env ptr jCallback w = Res.ok () w1 ∧
      w1.trace = w.trace ++ [Event.CreateFilterEngineAsync platform parameters] ∧
      (jCallback = none → parameters.isSubscriptionDownloadAllowedCallback = none) ∧
      (∀ jcb, jCallback = some jcb →
        parameters.isSubscriptionDownloadAllowedCallback =
          some { scheduler := obj.scheduler, callback := { callbackObject := jcb } }) ∧
      w1.javaException =
        (match env.CreateFilterEngineAsync platform parameters with
          | Except.ok _ => w.javaException
          | Except.error e => some e.what) ∧
      w1.pending = w.pending ∧
      w1.heap = w.heap ∧
      deliveredArguments w1.trace = deliveredArguments w.trace ∧
      completionCalls w1.trace = completionCalls w.trace := by
  rw [JniSetUpFilterEngine_eq env ptr jCallback w obj platform hobj hplatform]
  refine ⟨_, _, rfl, rfl, ?_, ?_, rfl, rfl, rfl, ?_, ?_⟩
  · intro h; simp [h]
  · intro jcb h; simp [h]
  · simp [deliveredArguments_append, deliveredArguments]
  · simp [completionCalls_append, completionCalls]

/-- Witness of C7: a callback is supplied on the live handle 2 of a world with two
handles whose platforms differ; the request reaches the platform of handle 2. -/
theorem JniSetUpFilterEngine_request_witness :
    findObject 2 twoHandleWorld.heap = some secondObject ∧
    secondObject.platform =
      some { logSystem := none, webRequest := none, fileSystem := some "/data/second" } ∧
    ∃ w1 parameters,
      JniSetUpFilterEngine sampleEnv 2 (some 9) twoHandleWorld = Res.ok () w1 ∧
      w1.trace = twoHandleWorld.trace ++
        [Event.CreateFilterEngineAsync
          { logSystem := none, webRequest := none, fileSystem := some "/data/second" }
          parameters] ∧
      ((some 9 : Option JObject) = none →
        parameters.isSubscriptionDownloadAllowedCallback = none) ∧
      (∀ jcb, (some 9 : Option JObject) = some jcb →
        parameters.isSubscriptionDownloadAllowedCallback =
          some { scheduler := secondObject.scheduler, callback := { callbackObject := jcb } }) ∧
      w1.javaException =
        (match sampleEnv.CreateFilterEngineAsync
            { logSystem := none, webRequest := none, fileSystem := some "/data/second" }
            parameters with
          | Except.ok _ => twoHandleWorld.javaException
          | Except.error e => some e.what) ∧
      w1.pending = twoHandleWorld.pending ∧
      w1.heap = twoHandleWorld.heap ∧
      deliveredArguments w1.trace = deliveredArguments twoHandleWorld.trace ∧
      completionCalls w1.trace = completionCalls twoHandleWorld.trace :=
  ⟨rfl, rfl, JniSetUpFilterEngine_request sampleEnv 2 (some 9) twoHandleWorld secondObject
    { logSystem := none, webRequest := none, fileSystem := some "/data/second" } rfl rfl⟩

/-- C4: a permission query raised on the hook that `JniSetUpFilterEngine` installs
submits exactly one unit of work to the scheduler stored in the handle and leaves the
trace untouched: neither the managed predicate nor the completion continuation is
invoked by the hook call. Both are invoked when the submitted unit is run. -/
theorem permission_hook_only_submits (env : Env) (ptr : Nat) (jCallback : JObject)
    (w : World) (obj : JniPlatform) (s : Scheduler) (platform : Platform)
    (hobj : findObject ptr w.heap = some obj) (hscheduler : obj.scheduler = some s)
    (hplatform : obj.platform = some platform) :
    ∃ w1 hook,
      JniSetUpFilterEngine env ptr (some jCallback) w = Res.ok () w1 ∧
      w1.trace = w.trace ++
        [Event.CreateFilterEngineAsync platform
          { isSubscriptionDownloadAllowedCallback := some hook }] ∧
      ∀ (arg : Option String) (k : DoneCallback) (w2 : World),
        ∃ task,
          hook.invoke arg k w2 =
            Res.ok () { w2 with pending := w2.pending ++ [(s, task)] } ∧
          ∀ w3 : World, ∃ result,
            task.run env w3 =
              Res.ok ()
                { w3 with trace := w3.trace ++
                    [Event.managedCall jCallback arg result,
                      Event.done k result.decision] } := by
  rw [JniSetUpFilterEngine_eq env ptr (some jCallback) w obj platform hobj hplatform]
  refine ⟨_, { scheduler := obj.scheduler, callback := { callbackObject := jCallback } },
    rfl, rfl, ?_⟩
  intro arg k w2
  refine ⟨{ callback := { callbackObject := jCallback }
            allowedConnectionType := arg
            doneCallback := k }, ?_, ?_⟩
  · exact PermissionHook_invoke_eq _ s hscheduler arg k w2
  · intro w3
    exact ⟨_, SchedulerTask_run_eq env _ w3⟩

/-- Witness of C4: the hook installed on the live handle 1. -/
theorem permission_hook_only_submits_witness :
    findObject 1 sampleWorld.heap = some sampleObject ∧
    sampleObject.scheduler = some 7 ∧
    sampleObject.platform = some { logSystem := none, webRequest := none, fileSystem := none } ∧
    ∃ w1 hook,
      JniSetUpFilterEngine sampleEnv 1 (some 9) sampleWorld = Res.ok () w1 ∧
      w1.trace = sampleWorld.trace ++
        [Event.CreateFilterEngineAsync
          { logSystem := none, webRequest := none, fileSystem := none }
          { isSubscriptionDownloadAllowedCallback := some hook }] ∧
      ∀ (arg : Option String) (k : DoneCallback) (w2 : World),
        ∃ task,
          hook.invoke arg k w2 =
            Res.ok () { w2 with pending := w2.pending ++ [(7, task)] } ∧
          ∀ w3 : World, ∃ result,
            task.run sampleEnv w3 =
              Res.ok ()
                { w3 with trace := w3.trace ++
                    [Event.managedCall 9 arg result, Event.done k result.decision] } :=
  ⟨rfl, rfl, rfl, permission_hook_only_submits sampleEnv 1 9 sampleWorld sampleObject 7
    { logSystem := none, webRequest := none, fileSystem := none } rfl rfl rfl⟩

/-- C2: for every finite sequence of permission queries raised on the hook that
`JniSetUpFilterEngine` installs, in any interleaving with scheduler progress, once
every submitted unit of work has been run the queue is empty and the trace has gained,
for each query in order, one invocation of the managed predicate on that query's
argument followed by one call of that query's continuation with the predicate's
decision. In particular each continuation has been called exactly once. -/
theorem permission_queries_completed_once (env : Env) (ptr : Nat) (jCallback : JObject)
    (w : World) (obj : JniPlatform) (s : Scheduler) (platform : Platform)
    (activities : List Activity)
    (hobj : findObject ptr w.heap = some obj) (hscheduler : obj.scheduler = some s)
    (hplatform : obj.platform = some platform) (hidle : w.pending = []) :
    ∃ w1 hook w2,
      JniSetUpFilterEngine env ptr (some jCallback) w = Res.ok () w1 ∧
      w1.trace = w.trace ++
        [Event.CreateFilterEngineAsync platform
          { isSubscriptionDownloadAllowedCallback := some hook }] ∧
      (interleave env hook activities >>= fun _ => runPending env) w1 = Res.ok () w2 ∧
      w2.pending = [] ∧
      w2.trace = w1.trace ++
        expectedCompletions env jCallback w1.trace (raisedQueries activities) ∧
      (completionCalls w2.trace).map Prod.fst =
        (completionCalls w1.trace).map Prod.fst ++
          (raisedQueries activities).map (fun q => q.doneCallback) := by
  refine ⟨_, { scheduler := obj.scheduler, callback := { callbackObject := jCallback } }, _,
    JniSetUpFilterEngine_eq env ptr (some jCallback) w obj platform hobj hplatform, rfl,
    interleave_then_runPending env _ s hscheduler activities [] _ (by simp [hidle]),
    rfl, rfl, ?_⟩
  simp [completionCalls_append, completionCalls, completionCalls_expectedCompletions]

/-- Witness of C2: two queries with a scheduler step in between, on the live handle 1. -/
theorem permission_queries_completed_once_witness :
    findObject 1 sampleWorld.heap = some sampleObject ∧
    sampleObject.scheduler = some 7 ∧
    sampleObject.platform = some { logSystem := none, webRequest := none, fileSystem := none } ∧
    sampleWorld.pending = [] ∧
    ∃ w1 hook w2,
      JniSetUpFilterEngine sampleEnv 1 (some 9) sampleWorld = Res.ok () w1 ∧
      w1.trace = sampleWorld.trace ++
        [Event.CreateFilterEngineAsync
          { logSystem := none, webRequest := none, fileSystem := none }
          { isSubscriptionDownloadAllowedCallback := some hook }] ∧
      (interleave sampleEnv hook
          [Activity.raise { allowedConnectionTypeArg := some "wifi", doneCallback := 1 },
            Activity.runNext,
            Activity.raise { allowedConnectionTypeArg := none, doneCallback := 2 }]
        >>= fun _ => runPending sampleEnv) w1 = Res.ok () w2 ∧
      w2.pending = [] ∧
      w2.trace = w1.trace ++
        expectedCompletions sampleEnv 9 w1.trace
          (raisedQueries
            [Activity.raise { allowedConnectionTypeArg := some "wifi", doneCallback := 1 },
              Activity.runNext,
              Activity.raise { allowedConnectionTypeArg := none, doneCallback := 2 }]) ∧
      (completionCalls w2.trace).map Prod.fst =
        (completionCalls w1.trace).map Prod.fst ++
          (raisedQueries
            [Activity.raise { allowedConnectionTypeArg := some "wifi", doneCallback := 1 },
              Activity.runNext,
              Activity.raise { allowedConnectionTypeArg := none, doneCallback := 2 }]).map
            (fun q => q.doneCallback) :=
  ⟨rfl, rfl, rfl, rfl, permission_queries_completed_once sampleEnv 1 9 sampleWorld sampleObject 7
    { logSystem := none, webRequest := none, fileSystem := none } _ rfl rfl rfl rfl⟩

/-- C3: a permission query raised on the installed hook delivers its argument to the
managed predicate as given: a present string, the empty string included, arrives
present with the same value, and an absent argument arrives absent. The predicate is
invoked with that argument and with no other. -/
theorem permission_argument_delivered_as_given (env : Env) (ptr : Nat) (jCallback : JObject)
    (w : World) (obj : JniPlatform) (s : Scheduler) (platform : Platform)
    (arg : Option String) (k : DoneCallback)
    (hobj : findObject ptr w.heap = some obj) (hscheduler : obj.scheduler = some s)
    (hplatform : obj.platform = some platform) (hidle : w.pending = []) :
    ∃ w1 hook w2,
      JniSetUpFilterEngine env ptr (some jCallback) w = Res.ok () w1 ∧
      w1.trace = w.trace ++
        [Event.CreateFilterEngineAsync platform
          { isSubscriptionDownloadAllowedCallback := some hook }] ∧
      (hook.invoke arg k >>= fun _ => runPending env) w1 = Res.ok () w2 ∧
      deliveredArguments w2.trace = deliveredArguments w1.trace ++ [arg] ∧
      (∀ value, arg = some value →
        deliveredArguments w2.trace = deliveredArguments w1.trace ++ [some value]) ∧
      (arg = none → deliveredArguments w2.trace = deliveredArguments w1.trace ++ [none]) ∧
      (∀ delivered, deliveredArguments w2.trace = deliveredArguments w1.trace ++ [delivered] →
        delivered = arg) := by
  have hdelivered : ∀ (history : List Event) (result : ManagedResult) (allowed : Bool),
      deliveredArguments
          (history ++ [Event.managedCall jCallback arg result, Event.done k allowed]) =
        deliveredArguments history ++ [arg] := by
    intro history result allowed
    simp [deliveredArguments_append, deliveredArguments]
  refine ⟨_, { scheduler := obj.scheduler, callback := { callbackObject := jCallback } }, _,
    JniSetUpFilterEngine_eq env ptr (some jCallback) w obj platform hobj hplatform, rfl,
    invoke_then_runPending env _ s hscheduler arg k _ hidle, hdelivered _ _ _, ?_, ?_, ?_⟩
  · intro value hvalue
    rw [← hvalue]
    exact hdelivered _ _ _
  · intro hnone
    rw [← hnone]
    exact hdelivered _ _ _
  · intro delivered h
    have h2 := (hdelivered _ _ _).symm.trans h
    simpa using h2.symm

/-- Witness of C3: the empty string is delivered as a present empty string. -/
theorem permission_argument_delivered_as_given_witness :
    findObject 1 sampleWorld.heap = some sampleObject ∧
    sampleObject.scheduler = some 7 ∧
    sampleObject.platform = some { logSystem := none, webRequest := none, fileSystem := none } ∧
    sampleWorld.pending = [] ∧
    ∃ w1 hook w2,
      JniSetUpFilterEngine sampleEnv 1 (some 9) sampleWorld = Res.ok () w1 ∧
      w1.trace = sampleWorld.trace ++
        [Event.CreateFilterEngineAsync
          { logSystem := none, webRequest := none, fileSystem := none }
          { isSubscriptionDownloadAllowedCallback := some hook }] ∧
      (hook.invoke (some "") 5 >>= fun _ => runPending sampleEnv) w1 = Res.ok () w2 ∧
      deliveredArguments w2.trace = deliveredArguments w1.trace ++ [some ""] ∧
      (∀ value, some "" = some value →
        deliveredArguments w2.trace = deliveredArguments w1.trace ++ [some value]) ∧
      ((some "" : Option String) = none →
        deliveredArguments w2.trace = deliveredArguments w1.trace ++ [none]) ∧
      (∀ delivered, deliveredArguments w2.trace = deliveredArguments w1.trace ++ [delivered] →
        delivered = some "") :=
  ⟨rfl, rfl, rfl, rfl, permission_argument_delivered_as_given sampleEnv 1 9 sampleWorld sampleObject 7
    { logSystem := none, webRequest := none, fileSystem := none } (some "") 5
    rfl rfl rfl rfl⟩

/-- C5: when the invocation of the managed predicate for a permission query raises an
exception, the unit of work still returns normally: no exception escapes into the scheduler, no managed
exception is left pending, and the continuation of the query is called exactly once,
with the value false. -/
theorem predicate_exception_yields_deny (env : Env) (ptr : Nat) (jCallback : JObject)
    (w : World) (obj : JniPlatform) (s : Scheduler) (platform : Platform)
    (arg : Option String) (k : DoneCallback) (message : String)
    (hobj : findObject ptr w.heap = some obj) (hscheduler : obj.scheduler = some s)
    (hplatform : obj.platform = some platform) (hidle : w.pending = [])
    (hraise : env.isConnectionAllowed jCallback arg
        (w.trace ++
          [Event.CreateFilterEngineAsync platform
            { isSubscriptionDownloadAllowedCallback :=
                some { scheduler := obj.scheduler, callback := { callbackObject := jCallback } } }]) =
      ManagedResult.raised message) :
    ∃ w1 hook w2,
      JniSetUpFilterEngine env ptr (some jCallback) w = Res.ok () w1 ∧
      w1.trace = w.trace ++
        [Event.CreateFilterEngineAsync platform
          { isSubscriptionDownloadAllowedCallback := some hook }] ∧
      (hook.invoke arg k >>= fun _ => runPending env) w1 = Res.ok () w2 ∧
      w2.trace = w1.trace ++
        [Event.managedCall jCallback arg (ManagedResult.raised message), Event.done k false] ∧
      completionCalls w2.trace = completionCalls w1.trace ++ [(k, false)] ∧
      w2.pending = [] ∧
      w2.javaException = w1.javaException := by
  refine ⟨_, { scheduler := obj.scheduler, callback := { callbackObject := jCallback } }, _,
    JniSetUpFilterEngine_eq env ptr (some jCallback) w obj platform hobj hplatform, rfl,
    invoke_then_runPending env _ s hscheduler arg k _ hidle, ?_, ?_, rfl, rfl⟩
  · simp [hraise, ManagedResult.decision]
  · simp [hraise, ManagedResult.decision, completionCalls_append, completionCalls]

/-- Witness of C5: the sample predicate raises on an absent argument. -/
theorem predicate_exception_yields_deny_witness :
    findObject 1 sampleWorld.heap = some sampleObject ∧
    sampleObject.scheduler = some 7 ∧
    sampleObject.platform = some { logSystem := none, webRequest := none, fileSystem := none } ∧
    sampleWorld.pending = [] ∧
    sampleEnv.isConnectionAllowed 9 none
        (sampleWorld.trace ++
          [Event.CreateFilterEngineAsync
          { logSystem := none, webRequest := none, fileSystem := none }
            { isSubscriptionDownloadAllowedCallback :=
                some { scheduler := sampleObject.scheduler, callback := { callbackObject := 9 } } }]) =
      ManagedResult.raised "NullPointerException" ∧
    ∃ w1 hook w2,
      JniSetUpFilterEngine sampleEnv 1 (some 9) sampleWorld = Res.ok () w1 ∧
      w1.trace = sampleWorld.trace ++
        [Event.CreateFilterEngineAsync
          { logSystem := none, webRequest := none, fileSystem := none }
          { isSubscriptionDownloadAllowedCallback := some hook }] ∧
      (hook.invoke none 5 >>= fun _ => runPending sampleEnv) w1 = Res.ok () w2 ∧
      w2.trace = w1.trace ++
        [Event.managedCall 9 none (ManagedResult.raised "NullPointerException"),
          Event.done 5 false] ∧
      completionCalls w2.trace = completionCalls w1.trace ++ [(5, false)] ∧
      w2.pending = [] ∧
      w2.javaException = w1.javaException :=
  ⟨rfl, rfl, rfl, rfl, rfl,
    predicate_exception_yields_deny sampleEnv 1 9 sampleWorld sampleObject 7
      { logSystem := none, webRequest := none, fileSystem := none } none 5
      "NullPointerException" rfl rfl rfl rfl rfl⟩

theorem releaseMembers_rawPointer (pointee : Nat) (live : List Nat) :
    releaseMembers [Member.rawPointer pointee] live = live := rfl

/-- C9: on a live handle `JniSetUpJsEngine` calls `SetUpJsEngine` exactly once, on the
platform stored in the object of that handle, with an `AppInfo` whose six fields are the
fields of the managed object read by name. With a non-zero isolate value the call
receives an isolate provider whose `Get` returns exactly that value, and destroying that
provider leaves the set of live isolates as it was, so the isolate is not released;
with the value zero the call receives no provider. The entry point itself releases no
isolate. -/
theorem JniSetUpJsEngine_isolate_provider (env : Env) (ptr : Nat) (jAppInfo : JObject)
    (v8IsolatePtr : Nat) (w : World) (obj : JniPlatform) (platform : Platform)
    (hobj : findObject ptr w.heap = some obj) (hplatform : obj.platform = some platform) :
    ∃ w1 isolateProvider,
      JniSetUpJsEngine env ptr jAppInfo v8IsolatePtr w = Res.ok () w1 ∧
      w1.trace = w.trace ++
        [Event.SetUpJsEngine platform
          { application := env.JniGetStringField jAppInfo "application"
            applicationVersion := env.JniGetStringField jAppInfo "applicationVersion"
            locale := env.JniGetStringField jAppInfo "locale"
            name := env.JniGetStringField jAppInfo "name"
            version := env.JniGetStringField jAppInfo "version"
            developmentBuild := env.JniGetBooleanField jAppInfo "developmentBuild" }
          isolateProvider] ∧
      w1.javaException =
        (match env.SetUpJsEngine platform
            { application := env.JniGetStringField jAppInfo "application"
              applicationVersion := env.JniGetStringField jAppInfo "applicationVersion"
              locale := env.JniGetStringField jAppInfo "locale"
              name := env.JniGetStringField jAppInfo "name"
              version := env.JniGetStringField jAppInfo "version"
              developmentBuild := env.JniGetBooleanField jAppInfo "developmentBuild" }
            isolateProvider with
          | Except.ok _ => w.javaException
          | Except.error e => some e.what) ∧
      w1.isolates = w.isolates ∧
      (v8IsolatePtr = 0 → isolateProvider = none) ∧
      (v8IsolatePtr ≠ 0 →
        ∃ holder, isolateProvider = some holder ∧ holder.Get = v8IsolatePtr ∧
          ∀ w2 : World, ∃ w3,
            holder.destroy w2 = Res.ok () w3 ∧ w3.isolates = w2.isolates ∧
            (v8IsolatePtr ∈ w2.isolates → v8IsolatePtr ∈ w3.isolates)) := by
  refine ⟨_, _, JniSetUpJsEngine_eq env ptr jAppInfo v8IsolatePtr w obj platform hobj hplatform,
    rfl, rfl, rfl, ?_, ?_⟩
  · intro h
    simp [h]
  · intro h
    refine ⟨{ isolate := v8IsolatePtr }, by simp [h], rfl, ?_⟩
    intro w2
    refine ⟨_, rfl, ?_, ?_⟩
    · exact releaseMembers_rawPointer v8IsolatePtr w2.isolates
    · intro hlive
      exact (releaseMembers_rawPointer v8IsolatePtr w2.isolates).symm ▸ hlive

/-- Witness of C9: the live isolate 4096 is shared on the live handle 2 of a world with
two handles whose platforms differ. -/
theorem JniSetUpJsEngine_isolate_provider_witness :
    findObject 2 twoHandleWorld.heap = some secondObject ∧
    secondObject.platform =
      some { logSystem := none, webRequest := none, fileSystem := some "/data/second" } ∧
    ∃ w1 isolateProvider,
      JniSetUpJsEngine sampleEnv 2 5 4096 twoHandleWorld = Res.ok () w1 ∧
      w1.trace = twoHandleWorld.trace ++
        [Event.SetUpJsEngine
          { logSystem := none, webRequest := none, fileSystem := some "/data/second" }
          { application := "application"
            applicationVersion := "applicationVersion"
            locale := "locale"
            name := "name"
            version := "version"
            developmentBuild := false }
          isolateProvider] ∧
      w1.javaException =
        (match sampleEnv.SetUpJsEngine
            { logSystem := none, webRequest := none, fileSystem := some "/data/second" }
            { application := "application"
              applicationVersion := "applicationVersion"
              locale := "locale"
              name := "name"
              version := "version"
              developmentBuild := false }
            isolateProvider with
          | Except.ok _ => twoHandleWorld.javaException
          | Except.error e => some e.what) ∧
      w1.isolates = twoHandleWorld.isolates ∧
      (4096 = 0 → isolateProvider = none) ∧
      (4096 ≠ 0 →
        ∃ holder, isolateProvider = some holder ∧ holder.Get = 4096 ∧
          ∀ w2 : World, ∃ w3,
            holder.destroy w2 = Res.ok () w3 ∧ w3.isolates = w2.isolates ∧
            (4096 ∈ w2.isolates → 4096 ∈ w3.isolates)) :=
  ⟨rfl, rfl, JniSetUpJsEngine_isolate_provider sampleEnv 2 5 4096 twoHandleWorld secondObject
    { logSystem := none, webRequest := none, fileSystem := some "/data/second" } rfl rfl⟩

/-- C6: no native failure propagates out of any of the six registered entry points
`ctor`, `dtor`, `setUpJsEngine`, `getJsEnginePtr`, `setUpFilterEngine` and
`ensureFilterEngine`, for every handle and input. Each of them returns normally (the
handle-taking ones on a live handle), and when the native operation it calls fails a
managed exception carrying the message of the failure has been raised, with result 0 for
`ctor` and `getJsEnginePtr`. The `delete` of `dtor` has no failing outcome: `dtor`
returns normally and leaves the managed exception slot as it was. -/
theorem entry_points_convert_failures (env : Env) :
    (∀ (w : World) (logSystem webRequest jBasePath : Option JObject), ∃ handle w1,
      JniCtor env logSystem webRequest jBasePath w = Res.ok handle w1 ∧
      (((∃ e, env.GetDefaultAsyncExecutor = Except.error e) ∨
        (∃ sink e, webRequest = some sink ∧
          env.CreateDefaultWebRequest { callbackObject := sink } = Except.error e) ∨
        (∃ jstr e, jBasePath = some jstr ∧
          env.CreateDefaultFileSystem (env.JniJavaToStdString jstr) = Except.error e) ∨
        (∃ e, env.CreatePlatform
          { logSystem := logSystem.map (fun sink => { callbackObject := sink })
            webRequest := webRequest.map (fun sink => { callbackObject := sink })
            fileSystem := jBasePath.map env.JniJavaToStdString } = Except.error e)) →
        handle = 0 ∧ ∃ message, w1.javaException = some message)) ∧
    (∀ (ptr : Nat) (w : World) (obj : JniPlatform) (platform : Platform),
      findObject ptr w.heap = some obj → obj.platform = some platform →
      (∀ jAppInfo v8IsolatePtr, ∃ w1,
        JniSetUpJsEngine env ptr jAppInfo v8IsolatePtr w = Res.ok () w1 ∧
        ∀ e, env.SetUpJsEngine platform
            { application := env.JniGetStringField jAppInfo "application"
              applicationVersion := env.JniGetStringField jAppInfo "applicationVersion"
              locale := env.JniGetStringField jAppInfo "locale"
              name := env.JniGetStringField jAppInfo "name"
              version := env.JniGetStringField jAppInfo "version"
              developmentBuild := env.JniGetBooleanField jAppInfo "developmentBuild" }
            (if v8IsolatePtr ≠ 0 then some { isolate := v8IsolatePtr } else none) =
              Except.error e →
          w1.javaException = some e.what) ∧
      (∃ result w1,
        JniGetJsEnginePtr env ptr w = Res.ok result w1 ∧
        ∀ e, env.GetJsEngine platform = Except.error e →
          result = 0 ∧ w1.javaException = some e.what) ∧
      (∀ jCallback, ∃ w1,
        JniSetUpFilterEngine env ptr jCallback w = Res.ok () w1 ∧
        ∀ e, env.CreateFilterEngineAsync platform
            { isSubscriptionDownloadAllowedCallback :=
                jCallback.map (fun jcb =>
                  { scheduler := obj.scheduler, callback := { callbackObject := jcb } }) } =
              Except.error e →
          w1.javaException = some e.what) ∧
      (∃ w1,
        JniEnsureFilterEngine env ptr w = Res.ok () w1 ∧
        ∀ e, env.GetFilterEngine platform = Except.error e →
          w1.javaException = some e.what) ∧
      (∃ w1, JniDtor ptr w = Res.ok () w1 ∧ w1.javaException = w.javaException)) ∧
    (∀ (w : World) (e : NativeException) (w1 : World),
      (∀ logSystem webRequest jBasePath,
        JniCtor env logSystem webRequest jBasePath w ≠ Res.throw e w1) ∧
      (∀ ptr, JniDtor ptr w ≠ Res.throw e w1) ∧
      (∀ ptr jAppInfo v8IsolatePtr,
        JniSetUpJsEngine env ptr jAppInfo v8IsolatePtr w ≠ Res.throw e w1) ∧
      (∀ ptr, JniGetJsEnginePtr env ptr w ≠ Res.throw e w1) ∧
      (∀ ptr jCallback, JniSetUpFilterEngine env ptr jCallback w ≠ Res.throw e w1) ∧
      (∀ ptr, JniEnsureFilterEngine env ptr w ≠ Res.throw e w1)) := by
  refine ⟨?_, ?_, ?_⟩
  · intro w logSystem webRequest jBasePath
    rcases JniCtorBody_outcome env logSystem webRequest jBasePath w with
      ⟨s, _, hok⟩ | ⟨e, obj1, _, hthrow⟩
    · refine ⟨_, _, by rw [JniCtor_eq, hok], ?_⟩
      intro hFail
      obtain ⟨e, obj1, _, hthrow⟩ :=
        JniCtorBody_failure env logSystem webRequest jBasePath w hFail
      rw [hok] at hthrow
      cases hthrow
    · exact ⟨_, _, by rw [JniCtor_eq, hthrow], fun _ => ⟨rfl, e.what, rfl⟩⟩
  · intro ptr w obj platform hobj hplatform
    refine ⟨?_, ?_, ?_, ?_, ?_⟩
    · intro jAppInfo v8IsolatePtr
      refine ⟨_, JniSetUpJsEngine_eq env ptr jAppInfo v8IsolatePtr w obj platform hobj
        hplatform, ?_⟩
      intro e he
      have he1 : env.SetUpJsEngine platform (TransformAppInfo env jAppInfo {})
          (if v8IsolatePtr ≠ 0 then some { isolate := v8IsolatePtr } else none) =
            Except.error e := he
      simp only [he1]
    · rw [JniGetJsEnginePtr_eq env ptr w obj platform hobj hplatform]
      cases hG : env.GetJsEngine platform with
      | error e1 =>
        refine ⟨_, _, rfl, ?_⟩
        intro e he
        cases he
        exact ⟨rfl, rfl⟩
      | ok jsEngine =>
        refine ⟨_, _, rfl, ?_⟩
        intro e he
        cases he
    · intro jCallback
      refine ⟨_, JniSetUpFilterEngine_eq env ptr jCallback w obj platform hobj hplatform, ?_⟩
      intro e he
      simp only [he]
    · refine ⟨_, JniEnsureFilterEngine_eq env ptr w obj platform hobj hplatform, ?_⟩
      intro e he
      simp only [he]
    · by_cases hptr : ptr = 0
      · exact ⟨w, by simp [JniDtor, hptr, pure_eq, M.pure], rfl⟩
      · exact ⟨_, JniDtor_eq ptr w obj hptr hobj, rfl⟩
  · intro w e w1
    refine ⟨?_, ?_, ?_, ?_, ?_, ?_⟩
    · intro logSystem webRequest jBasePath
      exact CATCH_THROW_AND_RETURN_ne_throw _ _ w e w1
    · intro ptr
      exact JniDtor_ne_throw ptr w e w1
    · intro ptr jAppInfo v8IsolatePtr
      exact CATCH_AND_THROW_ne_throw _ w e w1
    · intro ptr
      exact CATCH_THROW_AND_RETURN_ne_throw _ _ w e w1
    · intro ptr jCallback
      exact CATCH_AND_THROW_ne_throw _ w e w1
    · intro ptr
      exact CATCH_AND_THROW_ne_throw _ w e w1

/-- Witness of C6: every library call after the executor lookup fails. `ctor` is called
in a world without any handle; the other entry points are called on the live handle 2
of a world with two handles. -/
theorem entry_points_convert_failures_witness :
    findObject 2 twoHandleWorld.heap = some secondObject ∧
    secondObject.platform =
      some { logSystem := none, webRequest := none, fileSystem := some "/data/second" } ∧
    (∃ handle w1, JniCtor failingEnv none none none {} = Res.ok handle w1 ∧
      handle = 0 ∧ ∃ message, w1.javaException = some message) ∧
    (∃ w1, JniSetUpJsEngine failingEnv 2 5 0 twoHandleWorld = Res.ok () w1 ∧
      w1.javaException = some "set up js engine") ∧
    (∃ result w1, JniGetJsEnginePtr failingEnv 2 twoHandleWorld = Res.ok result w1 ∧
      result = 0 ∧ w1.javaException = some "js engine") ∧
    (∃ w1, JniSetUpFilterEngine failingEnv 2 none twoHandleWorld = Res.ok () w1 ∧
      w1.javaException = some "create filter engine") ∧
    (∃ w1, JniEnsureFilterEngine failingEnv 2 twoHandleWorld = Res.ok () w1 ∧
      w1.javaException = some "filter engine") ∧
    (∃ w1, JniDtor 2 twoHandleWorld = Res.ok () w1 ∧
      w1.javaException = twoHandleWorld.javaException) := by
  obtain ⟨hctor, hhandle, _⟩ := entry_points_convert_failures failingEnv
  obtain ⟨hjs, hptr, hfilter, hensure, hdtor⟩ :=
    hhandle 2 twoHandleWorld secondObject
      { logSystem := none, webRequest := none, fileSystem := some "/data/second" } rfl rfl
  refine ⟨rfl, rfl, ?_, ?_, ?_, ?_, ?_, hdtor⟩
  · obtain ⟨handle, w1, h, hfail⟩ := hctor {} none none none
    exact ⟨handle, w1, h, hfail (Or.inr (Or.inr (Or.inr ⟨_, rfl⟩)))⟩
  · obtain ⟨w1, h, hfail⟩ := hjs 5 0
    exact ⟨w1, h, hfail _ rfl⟩
  · obtain ⟨result, w1, h, hfail⟩ := hptr
    exact ⟨result, w1, h, hfail _ rfl⟩
  · obtain ⟨w1, h, hfail⟩ := hfilter none
    exact ⟨w1, h, hfail _ rfl⟩
  · obtain ⟨w1, h, hfail⟩ := hensure
    exact ⟨w1, h, hfail _ rfl⟩

end JniPlatformBridge
